import Mathlib

/-!
Verification development for the model lifecycle core of a Chinese text
classification service (trainer registry, bundle loader, predictor, serving
API). The Python source is embedded shallowly: the registry is a record of
model versions, the filesystem of trained artifacts is a lookup structure,
and the opaque TensorFlow model handle is a function from token sequences to
probability vectors. Floats are modelled as rationals.
-/

namespace CBTF

/-- A registry record, mirroring `model_info` written by
`ModelTrainer.save_model` (trainer.py): identifier, artifact directory path,
validation accuracy, vocabulary size, class count, ordered class labels,
max sequence length, opaque training configuration, creation timestamp and
status tag. -/
structure ModelVersion where
  model_version : String
  model_path : String
  val_accuracy : ℚ
  vocab_size : Nat
  num_classes : Nat
  classes : List String
  max_sequence_length : Nat
  training_config : List (String × String)
  created_at : String
  status : String
deriving DecidableEq

/-- The registry file content: ordered sequence of model versions plus the
"latest" pointer, mirroring `{'models': [...], 'latest': ...}`. -/
structure Registry where
  models : List ModelVersion
  latest : Option String
deriving DecidableEq

/-- `registry = {'models': [], 'latest': None}` (trainer.py line 242). -/
def emptyRegistry : Registry := { models := [], latest := none }

/-- The ordering used by `registry['models'].sort(key=lambda x:
x['val_accuracy'], reverse=True)`: `a` comes no later than `b` when `a`'s
accuracy is at least `b`'s. Python's sort is stable, as is
`List.insertionSort`. -/
def accGe (a b : ModelVersion) : Prop := b.val_accuracy ≤ a.val_accuracy

instance : DecidableRel accGe := fun a b =>
  inferInstanceAs (Decidable (b.val_accuracy ≤ a.val_accuracy))

instance : IsTotal ModelVersion accGe :=
  ⟨fun a b => (le_total b.val_accuracy a.val_accuracy).imp id id⟩

instance : IsTrans ModelVersion accGe :=
  ⟨fun _ _ _ h1 h2 => le_trans h2 h1⟩

/-- Sorting by validation accuracy descending (stable). -/
def sortByAccDesc (l : List ModelVersion) : List ModelVersion :=
  List.insertionSort accGe l

/-- `ModelTrainer._update_model_registry` (trainer.py lines 234-253): read
the stored registry if the file exists, else start empty; append the new
record; set `latest`; re-sort by accuracy descending; write back. `stored`
is the parsed file content, `none` when the file does not exist. -/
def updateModelRegistry (stored : Option Registry) (info : ModelVersion) :
    Registry :=
  let registry := stored.getD emptyRegistry
  { models := sortByAccDesc (registry.models ++ [info])
    latest := some info.model_version }

/-- Tokenizer configuration persisted as `vectorize_config.json`. -/
structure VectorizeConfig where
  max_tokens : Nat
  output_mode : String
  output_sequence_length : Nat
  vocabulary : List String
deriving DecidableEq

/-- Label encoder state: the ordered `classes_` array. -/
structure LabelEncoder where
  classes : List String
deriving DecidableEq

/-- Opaque inference-capable model handle (`tf.keras` model): a function
from a fixed-length token sequence to an output probability vector. -/
structure KerasModel where
  forward : List Nat → List ℚ

/-- The text-vectorization layer, carrying the configuration it was built
from (`ModelPredictor._create_vectorize_layer`). -/
structure VectorizeLayer where
  max_tokens : Nat
  output_mode : String
  output_sequence_length : Nat
  vocabulary : List String

/-- `_create_vectorize_layer`: a `TextVectorization` layer constructed
verbatim from the persisted configuration. -/
def createVectorizeLayer (cfg : VectorizeConfig) : VectorizeLayer :=
  { max_tokens := cfg.max_tokens
    output_mode := cfg.output_mode
    output_sequence_length := cfg.output_sequence_length
    vocabulary := cfg.vocabulary }

/-- Token id of one token: its position in the vocabulary, the OOV bucket 1
otherwise (abstraction of TensorFlow's `TextVectorization` lookup). -/
def vocabIndex (vocab : List String) (tok : String) : Nat :=
  match vocab.indexOf? tok with
  | some i => i
  | none => 1

/-- Encoding of a text into a fixed-length integer sequence: split into
tokens, look each up in the persisted vocabulary, pad or truncate to the
configured output length. Deterministic in the layer's configuration. -/
def VectorizeLayer.encode (vl : VectorizeLayer) (text : String) : List Nat :=
  let ids := (text.splitOn " ").map (vocabIndex vl.vocabulary)
  (ids ++ List.replicate vl.output_sequence_length 0).take
    vl.output_sequence_length

/-- The mutable fields of `ModelPredictor` (predictor.py lines 21-27). -/
structure PredictorState where
  model : Option KerasModel
  label_encoder : Option LabelEncoder
  vectorize_config : Option VectorizeConfig
  vectorize_layer : Option VectorizeLayer
  loaded : Bool

/-- Freshly constructed predictor: everything `None`, `loaded = False`. -/
def initState : PredictorState :=
  { model := none, label_encoder := none, vectorize_config := none
    vectorize_layer := none, loaded := false }

/-- The artifact filesystem: for a (normalized) artifact directory path,
whether each of the three artifact files is present and loadable, and its
deserialized content. `none` covers both a missing file and a file whose
load raises. -/
structure ArtifactStore where
  modelFile : String → Option KerasModel
  labelEncoderFile : String → Option LabelEncoder
  vectorizeConfigFile : String → Option VectorizeConfig

/-- `model_info['model_path'].replace('\\', '/')` (predictor.py line 192):
the pattern is the single backslash character, so this replaces each
backslash with a forward slash. -/
def normalizePath (p : String) : String :=
  String.mk (p.data.map (fun c => if c = '\\' then '/' else c))

/-- `ModelPredictor._load_model_from_info` (predictor.py lines 188-223):
check the weights file exists and load it, assigning `self.model`; then open
and unpickle the label encoder, assigning `self.label_encoder`; then open
and parse the tokenizer configuration, assigning `self.vectorize_config`;
build the vectorization layer; set `loaded`. Any exception is caught and
`False` returned, leaving whatever assignments already happened in place. -/
def loadModelFromInfo (fs : ArtifactStore) (st : PredictorState)
    (info : ModelVersion) : Bool × PredictorState :=
  let path := normalizePath info.model_path
  match fs.modelFile path with
  | none => (false, st)
  | some m =>
    let st1 := { st with model := some m }
    match fs.labelEncoderFile path with
    | none => (false, st1)
    | some le =>
      let st2 := { st1 with label_encoder := some le }
      match fs.vectorizeConfigFile path with
      | none => (false, st2)
      | some vc =>
        (true, { st2 with
                  vectorize_config := some vc
                  vectorize_layer := some (createVectorizeLayer vc)
                  loaded := true })

/-- State of the persisted registry file as the predictor reads it:
absent, present but unparsable, or parsed content. -/
inductive RegistryFile
  | missing
  | corrupt
  | parsed (r : Registry)

/-- `ModelPredictor.load_best_model` (predictor.py lines 29-51): missing
registry file, unparsable content and an empty model list all log and
return `False`; otherwise element 0 of `models` is loaded. -/
def load_best_model (fs : ArtifactStore) (reg : RegistryFile)
    (st : PredictorState) : Bool × PredictorState :=
  match reg with
  | .missing => (false, st)
  | .corrupt => (false, st)
  | .parsed r =>
    match r.models with
    | [] => (false, st)
    | info :: _ => loadModelFromInfo fs st info

/-- `ModelPredictor.load_model_by_version` (predictor.py lines 158-186):
linear search for the record with the given identifier; missing file,
unparsable content and unknown version return `False`. -/
def load_model_by_version (fs : ArtifactStore) (reg : RegistryFile)
    (st : PredictorState) (version : String) : Bool × PredictorState :=
  match reg with
  | .missing => (false, st)
  | .corrupt => (false, st)
  | .parsed r =>
    match r.models.find? (fun mi => mi.model_version == version) with
    | none => (false, st)
    | some info => loadModelFromInfo fs st info

/-- `ModelPredictor.get_available_models` (predictor.py lines 225-240):
returns `registry['models']`; a missing file returns `[]` with no log, and
any exception (unparsable content) is caught, logged, and `[]` returned. -/
def get_available_models (reg : RegistryFile) : List ModelVersion :=
  match reg with
  | .missing => []
  | .corrupt => []
  | .parsed r => r.models

/-- `ModelPredictor.unload_model` (predictor.py lines 242-250). -/
def unload_model (st : PredictorState) : PredictorState :=
  if st.loaded then initState else st

/-- Errors the predictor raises: `RuntimeError("模型未加载...")` when not
loaded, and the generic `RuntimeError("预测失败...")` wrapping any exception
thrown during inference. -/
inductive PredError
  | modelNotLoaded
  | inferenceError
deriving DecidableEq

/-- A per-text prediction record as built inside `predict`/`predict_batch`:
text, predicted label, its probability, and the label-to-probability
mapping. Batch items carry no individual processing time. -/
structure BatchItem where
  text : String
  predicted_class : String
  confidence : ℚ
  class_probabilities : List (String × ℚ)
deriving DecidableEq

/-- The single-text result: a batch item plus the elapsed wall-clock time
of the whole call. -/
structure PredictionResult extends BatchItem where
  processing_time : ℚ
deriving DecidableEq

/-- The batch result: per-text records in input order, the input count, and
one elapsed time for the whole batch call. -/
structure BatchResult where
  results : List BatchItem
  total_texts : Nat
  processing_time : ℚ
deriving DecidableEq

/-- `np.argmax` accumulator: scan the remaining entries, keeping the first
index at which the running maximum is attained (a later entry replaces the
best only when strictly larger). -/
def argmaxFrom : List ℚ → Nat → Nat × ℚ → Nat × ℚ
  | [], _, best => best
  | x :: xs, i, best =>
    argmaxFrom xs (i + 1) (if best.2 < x then (i, x) else best)

/-- `np.argmax` over a vector: first index of the maximum together with the
maximum value; `none` on an empty vector (where `np.argmax` raises). -/
def argmax? : List ℚ → Option (Nat × ℚ)
  | [] => none
  | x :: xs => some (argmaxFrom xs 1 (0, x))

/-- The body of `ModelPredictor.predict` under the loaded check
(predictor.py lines 69-94), per text: vectorize, run the model, take the
argmax index, map it through `label_encoder.inverse_transform` (an index out
of the label range raises), read the confidence, and build the
label-to-probability dictionary by iterating over `classes_` and indexing
the output vector (an output vector shorter than the label list raises).
Every raise surfaces as the generic inference failure. -/
def predictOne (m : KerasModel) (le : LabelEncoder) (vl : VectorizeLayer)
    (text : String) : Except PredError BatchItem :=
  let probs := m.forward (vl.encode text)
  match argmax? probs with
  | none => .error .inferenceError
  | some (idx, conf) =>
    match le.classes.get? idx with
    | none => .error .inferenceError
    | some cls =>
      if le.classes.length ≤ probs.length then
        .ok { text := text, predicted_class := cls, confidence := conf
              class_probabilities := le.classes.zip probs }
      else .error .inferenceError

/-- The bundle fields `predict`/`predict_batch` read from `self`: the
model, the label encoder and the vectorization layer, when all are
assigned. An unassigned field would surface as an attribute error caught by
the generic handler. -/
def activeBundle (st : PredictorState) :
    Option (KerasModel × LabelEncoder × VectorizeLayer) :=
  match st.model, st.label_encoder, st.vectorize_layer with
  | some m, some le, some vl => some (m, le, vl)
  | _, _, _ => none

/-- `ModelPredictor.predict` (predictor.py lines 62-98): raise when not
loaded, otherwise run one inference and attach the elapsed time `dt`
(wall-clock time is environment-supplied). A loaded predictor whose bundle
fields were never assigned fails with the generic inference error. -/
def predict (st : PredictorState) (text : String) (dt : ℚ) :
    Except PredError PredictionResult :=
  if st.loaded then
    match activeBundle st with
    | some (m, le, vl) =>
      match predictOne m le vl text with
      | .ok r => .ok { toBatchItem := r, processing_time := dt }
      | .error e => .error e
    | none => .error .inferenceError
  else .error .modelNotLoaded

/-- Sequencing of the per-text loop in `predict_batch`: the first raise
aborts the whole batch. -/
def mapExcept (f : α → Except ε β) : List α → Except ε (List β)
  | [] => .ok []
  | x :: xs =>
    match f x with
    | .error e => .error e
    | .ok y =>
      match mapExcept f xs with
      | .error e => .error e
      | .ok ys => .ok (y :: ys)

/-- `ModelPredictor.predict_batch` (predictor.py lines 100-143): raise when
not loaded; otherwise vectorize and infer the whole batch (row-wise, one
record per input text in input order), and return the records with the
input count and one elapsed time for the entire call. No limit is placed on
the number of texts. -/
def predict_batch (st : PredictorState) (texts : List String) (dt : ℚ) :
    Except PredError BatchResult :=
  if st.loaded then
    match activeBundle st with
    | some (m, le, vl) =>
      match mapExcept (predictOne m le vl) texts with
      | .ok rs =>
        .ok { results := rs, total_texts := texts.length
              processing_time := dt }
      | .error e => .error e
    | none => .error .inferenceError
  else .error .modelNotLoaded

/-- Failures of the `/predict/batch` endpoint (main.py lines 97-122):
service unavailable (503) when the model is not loaded, client error (400)
for a missing `texts` field or more than 100 texts, internal error (500)
for a predictor exception. -/
inductive BatchApiError
  | serviceUnavailable
  | missingTextsField
  | batchSizeExceeded
  | internalError
deriving DecidableEq

/-- The `/predict/batch` endpoint body (main.py lines 97-122), checks in
source order: loaded flag, presence of the `texts` field, the 100-text
ceiling, then the predictor call. -/
def apiPredictBatch (st : PredictorState) (request : Option (List String))
    (dt : ℚ) : Except BatchApiError BatchResult :=
  if st.loaded = false then .error .serviceUnavailable
  else
    match request with
    | none => .error .missingTextsField
    | some texts =>
      if 100 < texts.length then .error .batchSizeExceeded
      else
        match predict_batch st texts dt with
        | .ok r => .ok r
        | .error _ => .error .internalError

/-! ## Concrete demonstration values -/

/-- A registry record with a given identifier, path and accuracy. -/
def mkVersion (id path : String) (acc : ℚ) : ModelVersion :=
  { model_version := id, model_path := path, val_accuracy := acc
    vocab_size := 10000, num_classes := 3, classes := ["a", "b", "c"]
    max_sequence_length := 128, training_config := []
    created_at := "2026-01-01T00:00:00", status := "active" }

/-- Version v1 with validation accuracy 0.80. -/
def v080 : ModelVersion := mkVersion "v1" "models/registry/v1" 0.8

/-- Version v2 with validation accuracy 0.92. -/
def v092 : ModelVersion := mkVersion "v2" "models/registry/v2" 0.92

/-- A second record reusing identifier v1 (accuracy 0.9). -/
def dupB : ModelVersion := mkVersion "v1" "models/registry/v1b" 0.9

/-- An artifact filesystem with no artifacts at all. -/
def fsEmpty : ArtifactStore :=
  { modelFile := fun _ => none, labelEncoderFile := fun _ => none
    vectorizeConfigFile := fun _ => none }

/-! ## C1 and C2: registry append -/

/-- C1: for every sequence of append operations on the registry, after each
successful append the stored `models` sequence is sorted by `val_accuracy`
descending, and the best-model selection (element 0, as read by
`load_best_model`) is an entry of maximum validation accuracy; in
particular, after appending v1 with accuracy 0.80 then v2 with accuracy
0.92, loading the best model selects v2. -/
theorem registry_sorted_and_best_after_append (stored : Option Registry)
    (info : ModelVersion) :
    (updateModelRegistry stored info).models.Sorted accGe
    ∧ (∀ b, (updateModelRegistry stored info).models.head? = some b →
        ∀ m ∈ (updateModelRegistry stored info).models,
          m.val_accuracy ≤ b.val_accuracy)
    ∧ (∀ (fs : ArtifactStore) (st : PredictorState) (r : Registry)
        (i : ModelVersion) (rest : List ModelVersion),
        r.models = i :: rest →
          load_best_model fs (.parsed r) st = loadModelFromInfo fs st i)
    ∧ (updateModelRegistry (some (updateModelRegistry none v080))
        v092).models.head? = some v092 := by
  refine ⟨List.sorted_insertionSort accGe _, ?_, ?_, ?_⟩
  · intro b hb m hm
    have hs0 : ((updateModelRegistry stored info).models).Sorted accGe :=
      List.sorted_insertionSort accGe _
    cases hms : (updateModelRegistry stored info).models with
    | nil => rw [hms] at hb; cases hb
    | cons c t =>
      rw [hms] at hb hm hs0
      have hbc : c = b := by simpa using hb
      subst hbc
      rcases List.mem_cons.mp hm with h | h
      · exact le_of_eq (by rw [h])
      · exact List.rel_of_sorted_cons hs0 m h
  · intro fs st r i rest hr
    simp [load_best_model, hr]
  · norm_num [updateModelRegistry, sortByAccDesc, List.insertionSort,
      List.orderedInsert, emptyRegistry, accGe, v080, v092, mkVersion]

/-- Witness for C1 at concrete inputs: in the v1-then-v2 scenario the head
entry v2 dominates v1's accuracy, obtained from the theorem itself. -/
theorem registry_sorted_and_best_after_append_witness :
    v080.val_accuracy ≤ v092.val_accuracy := by
  have h := registry_sorted_and_best_after_append
    (some (updateModelRegistry none v080)) v092
  refine h.2.1 v092 h.2.2.2 v080 ?_
  norm_num [updateModelRegistry, sortByAccDesc, List.insertionSort,
    List.orderedInsert, emptyRegistry, accGe, v080, v092, mkVersion]

/-- C2 counterexample: appending a record whose identifier v1 already
exists in the stored registry does not fail — there is no duplicate check
in `_update_model_registry` — and the stored sequence changes, now holding
two records with identifier v1. -/
theorem duplicate_append_not_rejected_cex :
    (updateModelRegistry (some { models := [v080], latest := some "v1" })
      dupB).models = [dupB, v080]
    ∧ dupB.model_version = v080.model_version
    ∧ (updateModelRegistry (some { models := [v080], latest := some "v1" })
        dupB).models ≠ [v080] := by
  have h1 : (updateModelRegistry
      (some { models := [v080], latest := some "v1" }) dupB).models =
      [dupB, v080] := by
    norm_num [updateModelRegistry, sortByAccDesc, List.insertionSort,
      List.orderedInsert, emptyRegistry, accGe, v080, dupB, mkVersion]
  refine ⟨h1, rfl, ?_⟩
  rw [h1]
  intro hcontra
  have hlen := congrArg List.length hcontra
  simp at hlen

/-- C2 amended: appending a ModelVersion whose identifier already exists is
not rejected (no `DuplicateVersion` check exists); the record is appended
anyway, so the stored sequence is a permutation of the old sequence plus
the new record, its length grows by one, and the number of records bearing
the duplicated identifier grows by one. -/
theorem duplicate_append_appends_anyway (stored : Option Registry)
    (info : ModelVersion) :
    (updateModelRegistry stored info).models.Perm
        ((stored.getD emptyRegistry).models ++ [info])
    ∧ (updateModelRegistry stored info).models.length =
        (stored.getD emptyRegistry).models.length + 1
    ∧ (updateModelRegistry stored info).models.countP
          (fun m => m.model_version == info.model_version) =
        (stored.getD emptyRegistry).models.countP
          (fun m => m.model_version == info.model_version) + 1 := by
  have hperm : (updateModelRegistry stored info).models.Perm
      ((stored.getD emptyRegistry).models ++ [info]) := by
    simpa [updateModelRegistry, sortByAccDesc] using
      List.perm_insertionSort accGe
        ((stored.getD emptyRegistry).models ++ [info])
  refine ⟨hperm, ?_, ?_⟩
  · simpa [List.length_append] using hperm.length_eq
  · have := hperm.countP_eq (fun m => m.model_version == info.model_version)
    simpa [List.countP_append] using this

/-! ## Demonstration bundle and artifact stores -/

/-- A concrete model handle: every input yields probabilities 1/4, 3/4. -/
def demoModel : KerasModel := { forward := fun _ => [1/4, 3/4] }

/-- A concrete label encoder with two classes. -/
def demoEncoder : LabelEncoder := { classes := ["sports", "tech"] }

/-- A concrete tokenizer configuration. -/
def demoConfig : VectorizeConfig :=
  { max_tokens := 10000, output_mode := "int", output_sequence_length := 4
    vocabulary := ["", "[UNK]", "hello", "world"] }

/-- A registry record whose artifact directory is `m`. -/
def infoM : ModelVersion := mkVersion "vm" "m" 0.9

/-- Artifacts at `m`: weights present, label encoder missing. -/
def fsNoEncoder : ArtifactStore :=
  { modelFile := fun p => if p = "m" then some demoModel else none
    labelEncoderFile := fun _ => none
    vectorizeConfigFile := fun _ => none }

/-- Artifacts at `m`: weights and label encoder present, tokenizer
configuration missing. -/
def fsNoConfig : ArtifactStore :=
  { modelFile := fun p => if p = "m" then some demoModel else none
    labelEncoderFile := fun p => if p = "m" then some demoEncoder else none
    vectorizeConfigFile := fun _ => none }

/-- Artifacts at `m`: all three files present. -/
def fsFull : ArtifactStore :=
  { modelFile := fun p => if p = "m" then some demoModel else none
    labelEncoderFile := fun p => if p = "m" then some demoEncoder else none
    vectorizeConfigFile := fun p => if p = "m" then some demoConfig else none }

/-! ## Shared facts about the bundle loader -/

/-- A failed bundle load leaves the `loaded` flag at its previous value. -/
lemma lmfi_false_loaded (fs : ArtifactStore) (st : PredictorState)
    (info : ModelVersion) :
    (loadModelFromInfo fs st info).1 = false →
      (loadModelFromInfo fs st info).2.loaded = st.loaded := by
  unfold loadModelFromInfo
  cases hm : fs.modelFile (normalizePath info.model_path) with
  | none => simp [hm]
  | some m =>
    cases hle : fs.labelEncoderFile (normalizePath info.model_path) with
    | none => simp [hm, hle]
    | some le =>
      cases hvc : fs.vectorizeConfigFile (normalizePath info.model_path) with
      | none => simp [hm, hle, hvc]
      | some vc => simp [hm, hle, hvc]

/-- A successful bundle load sets the `loaded` flag. -/
lemma lmfi_true_loaded (fs : ArtifactStore) (st : PredictorState)
    (info : ModelVersion) :
    (loadModelFromInfo fs st info).1 = true →
      (loadModelFromInfo fs st info).2.loaded = true := by
  unfold loadModelFromInfo
  cases hm : fs.modelFile (normalizePath info.model_path) with
  | none => simp [hm]
  | some m =>
    cases hle : fs.labelEncoderFile (normalizePath info.model_path) with
    | none => simp [hm, hle]
    | some le =>
      cases hvc : fs.vectorizeConfigFile (normalizePath info.model_path) with
      | none => simp [hm, hle, hvc]
      | some vc => simp [hm, hle, hvc]

/-- A load that fails at the weights-existence check changes nothing. -/
lemma lmfi_no_weights (fs : ArtifactStore) (st : PredictorState)
    (info : ModelVersion)
    (h : fs.modelFile (normalizePath info.model_path) = none) :
    loadModelFromInfo fs st info = (false, st) := by
  simp only [loadModelFromInfo, h]

/-- The bundle load reports success exactly when all three artifacts are
present (and loadable) at the normalized path. -/
lemma lmfi_true_iff (fs : ArtifactStore) (st : PredictorState)
    (info : ModelVersion) :
    (loadModelFromInfo fs st info).1 = true ↔
      (fs.modelFile (normalizePath info.model_path)).isSome
      ∧ (fs.labelEncoderFile (normalizePath info.model_path)).isSome
      ∧ (fs.vectorizeConfigFile (normalizePath info.model_path)).isSome := by
  unfold loadModelFromInfo
  cases hm : fs.modelFile (normalizePath info.model_path) with
  | none => simp [hm]
  | some m =>
    cases hle : fs.labelEncoderFile (normalizePath info.model_path) with
    | none => simp [hm, hle]
    | some le =>
      cases hvc : fs.vectorizeConfigFile (normalizePath info.model_path) with
      | none => simp [hm, hle, hvc]
      | some vc => simp [hm, hle, hvc]

/-! ## C3: atomic install-or-nothing -/

/-- C3 counterexample: with the weights file present at `m` but the label
encoder unreadable, the load attempt fails, yet the predictor's `model`
field has already been overwritten — the installed bundle state is not the
same as before the attempt. -/
theorem bundle_install_not_atomic_cex :
    (loadModelFromInfo fsNoEncoder initState infoM).1 = false
    ∧ (loadModelFromInfo fsNoEncoder initState infoM).2.model ≠
        initState.model := by
  constructor
  · simp [loadModelFromInfo, fsNoEncoder, infoM, mkVersion, normalizePath,
      initState]
  · simp [loadModelFromInfo, fsNoEncoder, infoM, mkVersion, normalizePath,
      initState]

/-- C3 amended: a failed load attempt never sets the `loaded` flag (so a
bundle that was not active never becomes active, and no partially-built
bundle is ever activated by the failed attempt); a failure at the
weights-file check leaves the whole state unchanged; but a failure at a
later step (unreadable label encoder or tokenizer configuration) leaves
the bundle fields assigned so far (`model`, possibly `label_encoder`)
overwritten rather than restored. -/
theorem bundle_load_failure_keeps_flag (fs : ArtifactStore)
    (st : PredictorState) (info : ModelVersion) :
    ((loadModelFromInfo fs st info).1 = false →
      (loadModelFromInfo fs st info).2.loaded = st.loaded)
    ∧ (fs.modelFile (normalizePath info.model_path) = none →
        loadModelFromInfo fs st info = (false, st))
    ∧ ((loadModelFromInfo fs st info).1 = true →
        (loadModelFromInfo fs st info).2.loaded = true) :=
  ⟨lmfi_false_loaded fs st info, lmfi_no_weights fs st info,
    lmfi_true_loaded fs st info⟩

/-- Witness for the amended C3 at concrete inputs: on the empty artifact
store a load of `infoM` fails at the weights check and changes nothing. -/
theorem bundle_load_failure_keeps_flag_witness :
    loadModelFromInfo fsEmpty initState infoM = (false, initState) :=
  (bundle_load_failure_keeps_flag fsEmpty initState infoM).2.1 rfl

/-! ## C4: registry loading failures -/

/-- C4 counterexample: `get_available_models` silently yields the empty
model list both when the registry file is missing and when its content is
unparsable — it does not fail with `RegistryNotFound`/`RegistryCorrupt`
(no such typed errors exist in the code). -/
theorem registry_silent_empty_cex :
    get_available_models RegistryFile.missing = ([] : List ModelVersion)
    ∧ get_available_models RegistryFile.corrupt = ([] : List ModelVersion) :=
  ⟨rfl, rfl⟩

/-- C4 amended: the model-loading operations (`load_best_model`,
`load_model_by_version`) report failure — an untyped `False` with the
predictor state unchanged, not a named `RegistryNotFound`/`RegistryCorrupt`
error — when the registry file is missing or unparsable; but
`get_available_models` silently returns the empty list in both cases. -/
theorem registry_load_failures (fs : ArtifactStore) (st : PredictorState)
    (version : String) :
    load_best_model fs RegistryFile.missing st = (false, st)
    ∧ load_best_model fs RegistryFile.corrupt st = (false, st)
    ∧ load_model_by_version fs RegistryFile.missing st version = (false, st)
    ∧ load_model_by_version fs RegistryFile.corrupt st version = (false, st)
    ∧ get_available_models RegistryFile.missing = []
    ∧ get_available_models RegistryFile.corrupt = [] :=
  ⟨rfl, rfl, rfl, rfl, rfl, rfl⟩

/-! ## C7: artifact verification -/

/-- C7 counterexample: with weights and label encoder present at `m` but
the tokenizer configuration missing, the load fails, yet both the model
and the label encoder were already loaded and assigned — the loader did
not verify the three artifact files up front, and no `ArtifactMissing`
error naming the artifact exists (the failure is an untyped `False`). -/
theorem artifact_verification_cex :
    (loadModelFromInfo fsNoConfig initState infoM).1 = false
    ∧ (loadModelFromInfo fsNoConfig initState infoM).2.model = some demoModel
    ∧ (loadModelFromInfo fsNoConfig initState infoM).2.label_encoder =
        some demoEncoder := by
  refine ⟨?_, ?_, ?_⟩ <;>
    simp [loadModelFromInfo, fsNoConfig, infoM, mkVersion, normalizePath,
      initState]

/-- C7 amended: a missing artifact file of any of the three kinds causes
the load to fail (success holds exactly when all three are present), but
only the model-weights file is verified up front before any state change;
a missing label encoder or tokenizer configuration is discovered only when
the file is read, after earlier artifacts were already assigned, and the
failure is an untyped `False` rather than `ArtifactMissing(name)`. -/
theorem artifact_missing_fails (fs : ArtifactStore) (st : PredictorState)
    (info : ModelVersion) :
    ((loadModelFromInfo fs st info).1 = true ↔
      (fs.modelFile (normalizePath info.model_path)).isSome
      ∧ (fs.labelEncoderFile (normalizePath info.model_path)).isSome
      ∧ (fs.vectorizeConfigFile (normalizePath info.model_path)).isSome)
    ∧ (fs.modelFile (normalizePath info.model_path) = none →
        loadModelFromInfo fs st info = (false, st))
    ∧ (fs.labelEncoderFile (normalizePath info.model_path) = none →
        (loadModelFromInfo fs st info).1 = false)
    ∧ (fs.vectorizeConfigFile (normalizePath info.model_path) = none →
        (loadModelFromInfo fs st info).1 = false) := by
  refine ⟨lmfi_true_iff fs st info, lmfi_no_weights fs st info, ?_, ?_⟩
  · intro h
    cases hb : (loadModelFromInfo fs st info).1
    · rfl
    · have := (lmfi_true_iff fs st info).mp hb
      rw [h] at this
      simp at this
  · intro h
    cases hb : (loadModelFromInfo fs st info).1
    · rfl
    · have := (lmfi_true_iff fs st info).mp hb
      rw [h] at this
      simp at this

/-- Witness for the amended C7 at concrete inputs: on `fsNoConfig` the
missing tokenizer configuration makes the load of `infoM` fail. -/
theorem artifact_missing_fails_witness :
    (loadModelFromInfo fsNoConfig initState infoM).1 = false :=
  (artifact_missing_fails fsNoConfig initState infoM).2.2.2 rfl

/-! ## C10: load operations never raise, return False on failure -/

/-- A concrete registry whose single entry is `infoM`. -/
def regM : Registry := { models := [infoM], latest := some "vm" }

/-- C10 counterexample: `load_best_model` on a parsed registry whose best
entry has its weights file present but its label encoder unreadable returns
`False`, but the predictor state is not retained — the `model` field was
overwritten during the failed attempt. -/
theorem load_api_state_not_retained_cex :
    (load_best_model fsNoEncoder (RegistryFile.parsed regM) initState).1 =
      false
    ∧ (load_best_model fsNoEncoder (RegistryFile.parsed regM)
        initState).2.model ≠ initState.model := by
  constructor
  · simp [load_best_model, regM, loadModelFromInfo, fsNoEncoder, infoM,
      mkVersion, normalizePath, initState]
  · simp [load_best_model, regM, loadModelFromInfo, fsNoEncoder, infoM,
      mkVersion, normalizePath, initState]

/-- C10 amended: `load_best_model` and `load_model_by_version` are total —
every exception is caught — and report every failure mode (missing registry
file, unparsable content, empty model list, unknown version, any
artifact-load failure) by returning `False`; they return `True` exactly
when every load step succeeded, at which point the `loaded` flag is set. On
failure the `loaded` flag retains its prior value, but the bundle fields
are not always retained (see the counterexample). -/
theorem load_api_false_on_failure (fs : ArtifactStore) (reg : RegistryFile)
    (st : PredictorState) (version : String) :
    ((load_best_model fs reg st).1 = false →
      (load_best_model fs reg st).2.loaded = st.loaded)
    ∧ ((load_best_model fs reg st).1 = true →
        (load_best_model fs reg st).2.loaded = true)
    ∧ ((load_model_by_version fs reg st version).1 = false →
        (load_model_by_version fs reg st version).2.loaded = st.loaded)
    ∧ ((load_model_by_version fs reg st version).1 = true →
        (load_model_by_version fs reg st version).2.loaded = true)
    ∧ (∀ r info rest, reg = RegistryFile.parsed r →
        r.models = info :: rest →
        ((load_best_model fs reg st).1 = true ↔
          (fs.modelFile (normalizePath info.model_path)).isSome
          ∧ (fs.labelEncoderFile (normalizePath info.model_path)).isSome
          ∧ (fs.vectorizeConfigFile (normalizePath info.model_path)).isSome))
    := by
  refine ⟨?_, ?_, ?_, ?_, ?_⟩
  · cases reg with
    | missing => intro _; rfl
    | corrupt => intro _; rfl
    | parsed r =>
      cases hr : r.models with
      | nil => simp [load_best_model, hr]
      | cons i rest =>
        simp only [load_best_model, hr]
        exact lmfi_false_loaded fs st i
  · cases reg with
    | missing => simp [load_best_model]
    | corrupt => simp [load_best_model]
    | parsed r =>
      cases hr : r.models with
      | nil => simp [load_best_model, hr]
      | cons i rest =>
        simp only [load_best_model, hr]
        exact lmfi_true_loaded fs st i
  · cases reg with
    | missing => intro _; rfl
    | corrupt => intro _; rfl
    | parsed r =>
      cases hf : r.models.find? (fun mi => mi.model_version == version) with
      | none => simp [load_model_by_version, hf]
      | some i =>
        simp only [load_model_by_version, hf]
        exact lmfi_false_loaded fs st i
  · cases reg with
    | missing => simp [load_model_by_version]
    | corrupt => simp [load_model_by_version]
    | parsed r =>
      cases hf : r.models.find? (fun mi => mi.model_version == version) with
      | none => simp [load_model_by_version, hf]
      | some i =>
        simp only [load_model_by_version, hf]
        exact lmfi_true_loaded fs st i
  · intro r info rest hreg hr
    subst hreg
    simp only [load_best_model, hr]
    exact lmfi_true_iff fs st info

/-- Witness for the amended C10 at concrete inputs: on the full artifact
store, loading the best model from the parsed one-entry registry succeeds,
and by the theorem the `loaded` flag is then set. -/
theorem load_api_false_on_failure_witness :
    (load_best_model fsFull (RegistryFile.parsed regM) initState).2.loaded =
      true := by
  refine (load_api_false_on_failure fsFull (RegistryFile.parsed regM)
    initState "vm").2.1 ?_
  simp [load_best_model, regM, loadModelFromInfo, fsFull, infoM, mkVersion,
    normalizePath, initState]

/-! ## C5: predict on an unloaded predictor -/

/-- C5: calling `predict` or `predict_batch` on a predictor with no active
bundle (`loaded` flag false) fails with the model-not-loaded error, for any
input text or text list, before any inference runs (the check precedes all
bundle access). -/
theorem predict_unloaded_fails (st : PredictorState) (text : String)
    (texts : List String) (dt : ℚ) (h : st.loaded = false) :
    predict st text dt = .error .modelNotLoaded
    ∧ predict_batch st texts dt = .error .modelNotLoaded := by
  constructor
  · simp [predict, h]
  · simp [predict_batch, h]

/-- Witness for C5 at concrete inputs: a freshly constructed predictor
rejects both a single prediction and a batch. -/
theorem predict_unloaded_fails_witness :
    predict initState "你好" 0 = .error .modelNotLoaded
    ∧ predict_batch initState ["a", "b"] 0 = .error .modelNotLoaded :=
  predict_unloaded_fails initState "你好" ["a", "b"] 0 rfl

/-! ## Facts about argmax and the probability dictionary -/

/-- The accumulator result of the argmax scan dominates the seed value and
every scanned entry. -/
lemma argmaxFrom_le (l : List ℚ) : ∀ (i : Nat) (best : Nat × ℚ),
    best.2 ≤ (argmaxFrom l i best).2 ∧ ∀ x ∈ l, x ≤ (argmaxFrom l i best).2 := by
  induction l with
  | nil =>
    intro i best
    exact ⟨le_refl _, by simp⟩
  | cons x xs ih =>
    intro i best
    simp only [argmaxFrom]
    have h2 := ih (i + 1) (if best.2 < x then (i, x) else best)
    have hseed : best.2 ≤ (if best.2 < x then (i, x) else best).2 := by
      by_cases hc : best.2 < x
      · simp only [if_pos hc]
        exact le_of_lt hc
      · simp only [if_neg hc]
        exact le_refl _
    have hx : x ≤ (if best.2 < x then (i, x) else best).2 := by
      by_cases hc : best.2 < x
      · simp only [if_pos hc]
        exact le_refl _
      · simp only [if_neg hc]
        exact le_of_not_lt hc
    refine ⟨le_trans hseed h2.1, ?_⟩
    intro y hy
    rcases List.mem_cons.mp hy with rfl | hmem
    · exact le_trans hx h2.1
    · exact h2.2 y hmem

/-- The index tracked by the argmax scan stays a valid index of the full
vector, holding the tracked value. -/
lemma argmaxFrom_get (l : List ℚ) : ∀ (full : List ℚ) (i : Nat)
    (best : Nat × ℚ), full.drop i = l → full.get? best.1 = some best.2 →
    full.get? (argmaxFrom l i best).1 = some (argmaxFrom l i best).2 := by
  induction l with
  | nil =>
    intro full i best _ hbest
    simpa [argmaxFrom] using hbest
  | cons x xs ih =>
    intro full i best hdrop hbest
    simp only [argmaxFrom]
    have hx : full.get? i = some x := by
      have h0 : (full.drop i).get? 0 = some x := by rw [hdrop]; rfl
      rw [List.get?_drop] at h0
      simpa using h0
    have hdrop2 : full.drop (i + 1) = xs := by
      have : List.drop 1 (List.drop i full) = List.drop (i + 1) full :=
        List.drop_drop 1 i full
      rw [← this, hdrop]
      rfl
    apply ih full (i + 1)
    · exact hdrop2
    · by_cases hc : best.2 < x
      · simp only [if_pos hc]
        exact hx
      · simp only [if_neg hc]
        exact hbest

/-- `np.argmax` returns the position of a maximum entry: the value at the
returned index is the returned value, and no entry exceeds it. -/
lemma argmax?_spec {l : List ℚ} {idx : Nat} {v : ℚ}
    (h : argmax? l = some (idx, v)) :
    l.get? idx = some v ∧ ∀ x ∈ l, x ≤ v := by
  cases l with
  | nil => cases h
  | cons x xs =>
    simp only [argmax?, Option.some.injEq] at h
    have hget := argmaxFrom_get xs (x :: xs) 1 (0, x) rfl rfl
    have hle := argmaxFrom_le xs 1 (0, x)
    rw [h] at hget hle
    refine ⟨hget, ?_⟩
    intro y hy
    rcases List.mem_cons.mp hy with rfl | hmem
    · exact hle.1
    · exact hle.2 y hmem

/-- Every key of the zipped class list has an entry in the dictionary when
the probability vector is long enough. -/
lemma lookup_zip_exists {c : String} : ∀ (cs : List String) (ps : List ℚ),
    c ∈ cs → cs.length ≤ ps.length →
    ∃ p, (cs.zip ps).lookup c = some p := by
  intro cs
  induction cs with
  | nil =>
    intro ps h
    cases h
  | cons c0 cs ih =>
    intro ps hmem hlen
    cases ps with
    | nil => simp at hlen
    | cons p0 ps =>
      by_cases hc : c = c0
      · subst hc
        exact ⟨p0, by simp [List.zip_cons_cons, List.lookup_cons]⟩
      · rcases List.mem_cons.mp hmem with h | h
        · exact absurd h hc
        · rcases ih ps h (Nat.le_of_succ_le_succ (by simpa using hlen))
            with ⟨p, hp⟩
          refine ⟨p, ?_⟩
          simp [List.zip_cons_cons, List.lookup_cons, beq_false_of_ne hc, hp]

/-- Looking up the class at position `i` in the dictionary yields the
probability at position `i`, provided the class labels are distinct. -/
lemma lookup_zip_get : ∀ (cs : List String) (ps : List ℚ) (i : Nat)
    (c : String) (v : ℚ), cs.Nodup → cs.get? i = some c →
    ps.get? i = some v → (cs.zip ps).lookup c = some v := by
  intro cs
  induction cs with
  | nil =>
    intro ps i c v _ hc _
    simp at hc
  | cons c0 cs ih =>
    intro ps i c v hnd hc hv
    cases ps with
    | nil => simp at hv
    | cons p0 ps =>
      cases i with
      | zero =>
        have hc0 : c0 = c := by simpa using hc
        have hv0 : p0 = v := by simpa using hv
        subst hc0
        subst hv0
        simp [List.zip_cons_cons, List.lookup_cons]
      | succ i =>
        have hc2 : cs.get? i = some c := by simpa using hc
        have hv2 : ps.get? i = some v := by simpa using hv
        have hcm : c ∈ cs := List.get?_mem hc2
        have hne : c ≠ c0 := by
          intro he
          exact (List.nodup_cons.mp hnd).1 (he ▸ hcm)
        rw [List.zip_cons_cons, List.lookup_cons]
        rw [beq_false_of_ne hne]
        exact ih ps i c v (List.nodup_cons.mp hnd).2 hc2 hv2

/-- Characterization of a successful single-text inference: the confidence
is the argmax value of the output vector, the predicted class is the label
at the argmax index, the label list is no longer than the output, and the
dictionary zips labels with probabilities positionally. -/
lemma predictOne_ok {m : KerasModel} {le : LabelEncoder}
    {vl : VectorizeLayer} {text : String} {r : BatchItem}
    (h : predictOne m le vl text = .ok r) :
    ∃ idx, argmax? (m.forward (vl.encode text)) = some (idx, r.confidence)
      ∧ le.classes.get? idx = some r.predicted_class
      ∧ le.classes.length ≤ (m.forward (vl.encode text)).length
      ∧ r.text = text
      ∧ r.class_probabilities =
          le.classes.zip (m.forward (vl.encode text)) := by
  simp only [predictOne] at h
  split at h
  · cases h
  · rename_i idx conf ha
    split at h
    · cases h
    · rename_i cls hg
      split at h
      · rename_i hl
        cases h
        exact ⟨idx, ha, hg, hl, rfl, rfl⟩
      · cases h

/-! ## C6: prediction result invariants -/

/-- C6: for every successfully produced prediction record, under the
trained-model guarantees (distinct class labels, output vector of the same
length as the label list, output mass within 1e-3 of 1 — the softmax head
of the trainer's architecture), the class-probability mapping assigns a
probability to every known label, its values sum to 1 within 1e-3, the
predicted class attains the maximum probability of the mapping (argmax),
and the confidence is exactly the probability the mapping assigns to the
predicted class. -/
theorem prediction_result_probabilities (m : KerasModel) (le : LabelEncoder)
    (vl : VectorizeLayer) (text : String) (r : BatchItem)
    (hok : predictOne m le vl text = .ok r)
    (hnd : le.classes.Nodup)
    (hlen : (m.forward (vl.encode text)).length = le.classes.length)
    (hsum : |(m.forward (vl.encode text)).sum - 1| ≤ 1 / 1000) :
    (∀ c ∈ le.classes, ∃ p, r.class_probabilities.lookup c = some p)
    ∧ |(r.class_probabilities.map Prod.snd).sum - 1| ≤ 1 / 1000
    ∧ r.class_probabilities.lookup r.predicted_class = some r.confidence
    ∧ ∀ pr ∈ r.class_probabilities, pr.2 ≤ r.confidence := by
  obtain ⟨idx, ha, hg, hl, _, hmap⟩ := predictOne_ok hok
  have hspec := argmax?_spec ha
  refine ⟨?_, ?_, ?_, ?_⟩
  · intro c hc
    rw [hmap]
    exact lookup_zip_exists le.classes _ hc (le_of_eq hlen.symm)
  · rw [hmap]
    rw [List.map_snd_zip le.classes _ (le_of_eq hlen)]
    exact hsum
  · rw [hmap]
    exact lookup_zip_get le.classes _ idx r.predicted_class r.confidence
      hnd hg hspec.1
  · intro pr hpr
    rw [hmap] at hpr
    exact hspec.2 pr.2 (List.of_mem_zip hpr).2

/-- The demonstration vectorization layer. -/
def demoLayer : VectorizeLayer := createVectorizeLayer demoConfig

/-- A loaded predictor holding the demonstration bundle. -/
def demoLoaded : PredictorState :=
  { model := some demoModel, label_encoder := some demoEncoder
    vectorize_config := some demoConfig, vectorize_layer := some demoLayer
    loaded := true }

/-- The record the demonstration bundle produces for any text. -/
def demoItem (text : String) : BatchItem :=
  { text := text, predicted_class := "tech", confidence := 3 / 4
    class_probabilities := [("sports", 1 / 4), ("tech", 3 / 4)] }

/-- The demonstration bundle classifies every text as `tech` with
probability 3/4. -/
lemma predictOne_demo (text : String) :
    predictOne demoModel demoEncoder demoLayer text = .ok (demoItem text) := by
  norm_num [predictOne, demoModel, demoEncoder, demoItem, argmax?,
    argmaxFrom, List.zip_cons_cons]

/-- Witness for C6 at concrete inputs: for the demonstration bundle's
record on text `"x"`, the mapping's entry at the predicted class is the
confidence, obtained from the theorem with each hypothesis discharged. -/
theorem prediction_result_probabilities_witness :
    (demoItem "x").class_probabilities.lookup (demoItem "x").predicted_class =
      some (demoItem "x").confidence := by
  have h := prediction_result_probabilities demoModel demoEncoder demoLayer
    "x" (demoItem "x") (predictOne_demo "x") (by decide)
    (by norm_num [demoModel, demoEncoder])
    (by norm_num [demoModel])
  exact h.2.2.1

/-! ## Facts about the batch loop -/

/-- A successful batch loop yields one record per input. -/
lemma mapExcept_length {α β ε : Type} {f : α → Except ε β} :
    ∀ {xs : List α} {ys : List β},
      mapExcept f xs = .ok ys → ys.length = xs.length := by
  intro xs
  induction xs with
  | nil =>
    intro ys h
    cases h
    rfl
  | cons a as ih =>
    intro ys h
    simp only [mapExcept] at h
    cases hfa : f a with
    | error e => rw [hfa] at h; cases h
    | ok y0 =>
      rw [hfa] at h
      cases hrest : mapExcept f as with
      | error e => rw [hrest] at h; cases h
      | ok ys0 =>
        rw [hrest] at h
        cases h
        simp [ih hrest]

/-- In a successful batch loop, the record at position `i` is the result of
the per-text function on the input at position `i`. -/
lemma mapExcept_get {α β ε : Type} {f : α → Except ε β} :
    ∀ {xs : List α} {ys : List β}, mapExcept f xs = .ok ys →
      ∀ {i : Nat} {x : α}, xs.get? i = some x →
        ∃ y, ys.get? i = some y ∧ f x = .ok y := by
  intro xs
  induction xs with
  | nil =>
    intro ys _ i x hx
    simp at hx
  | cons a as ih =>
    intro ys h i x hx
    simp only [mapExcept] at h
    cases hfa : f a with
    | error e => rw [hfa] at h; cases h
    | ok y0 =>
      rw [hfa] at h
      cases hrest : mapExcept f as with
      | error e => rw [hrest] at h; cases h
      | ok ys0 =>
        rw [hrest] at h
        cases h
        cases i with
        | zero =>
          have hax : a = x := by simpa using hx
          subst hax
          exact ⟨y0, by simp, hfa⟩
        | succ i =>
          have hx2 : as.get? i = some x := by simpa using hx
          rcases ih hrest hx2 with ⟨y, hy1, hy2⟩
          exact ⟨y, by simpa using hy1, hy2⟩

/-- On a replicated input the batch loop replicates the per-text result. -/
lemma mapExcept_replicate {α β ε : Type} {f : α → Except ε β} {x : α}
    {y : β} (h : f x = .ok y) :
    ∀ n, mapExcept f (List.replicate n x) = .ok (List.replicate n y) := by
  intro n
  induction n with
  | zero => rfl
  | succ n ih =>
    simp only [List.replicate, mapExcept, h, ih]

/-- Evaluation of an accepted batch call on a loaded predictor. -/
lemma predict_batch_eval (st : PredictorState) (m : KerasModel)
    (le : LabelEncoder) (vl : VectorizeLayer) (hsl : st.loaded = true)
    (hb : activeBundle st = some (m, le, vl)) {texts : List String}
    {rs : List BatchItem}
    (hmap : mapExcept (predictOne m le vl) texts = .ok rs) (dt : ℚ) :
    predict_batch st texts dt =
      .ok { results := rs, total_texts := texts.length
            processing_time := dt } := by
  simp only [predict_batch, hsl, if_true, hb, hmap]

/-! ## C8: batch size ceiling -/

/-- C8: a request with more than 100 texts is rejected by the serving
endpoint with the batch-size error before the predictor is invoked (the
error response carries no results), while the predictor's own
`predict_batch` places no ceiling: on the demonstration bundle a batch of
101 texts succeeds with 101 records. -/
theorem batch_limit_enforced_by_api (st : PredictorState)
    (texts : List String) (dt : ℚ)
    (hloaded : st.loaded = true) (hlen : 100 < texts.length) :
    apiPredictBatch st (some texts) dt = .error .batchSizeExceeded
    ∧ predict_batch demoLoaded (List.replicate 101 "x") 0 =
        .ok { results := List.replicate 101 (demoItem "x")
              total_texts := 101, processing_time := 0 } := by
  constructor
  · simp [apiPredictBatch, hloaded, hlen]
  · rw [predict_batch_eval demoLoaded demoModel demoEncoder demoLayer rfl rfl
      (mapExcept_replicate (predictOne_demo "x") 101) 0]
    simp

/-- Witness for C8 at concrete inputs: 101 texts on the loaded
demonstration predictor are rejected by the endpoint. -/
theorem batch_limit_enforced_by_api_witness :
    apiPredictBatch demoLoaded (some (List.replicate 101 "x")) 0 =
      .error .batchSizeExceeded :=
  (batch_limit_enforced_by_api demoLoaded (List.replicate 101 "x") 0 rfl
    (by simp)).1

/-! ## C9: batch results, order and consistency with single predict -/

/-- C9: every accepted batch call returns one record per input text in
input order (the record at position `i` carries the text at position `i`),
a `total_texts` count equal to the input length, and a single
`processing_time` for the whole call (the per-text records carry none —
their type has no such field); and each per-text record is exactly the
record the single-text `predict` produces for that text under the same
active bundle, whatever elapsed time the single call observes. -/
theorem predict_batch_per_text (st : PredictorState) (texts : List String)
    (dt : ℚ) (b : BatchResult)
    (hok : predict_batch st texts dt = .ok b) :
    b.total_texts = texts.length
    ∧ b.results.length = texts.length
    ∧ b.processing_time = dt
    ∧ ∀ i text, texts.get? i = some text →
        ∃ item, b.results.get? i = some item
          ∧ item.text = text
          ∧ ∀ dt2, predict st text dt2 =
              .ok { toBatchItem := item, processing_time := dt2 } := by
  simp only [predict_batch] at hok
  cases hsl : st.loaded with
  | false =>
    rw [hsl] at hok
    simp at hok
  | true =>
    rw [hsl] at hok
    simp only [if_true] at hok
    cases hb : activeBundle st with
    | none =>
      rw [hb] at hok
      cases hok
    | some bundle =>
      rw [hb] at hok
      obtain ⟨m, le, vl⟩ := bundle
      simp only [] at hok
      cases hmap : mapExcept (predictOne m le vl) texts with
      | error e =>
        rw [hmap] at hok
        cases hok
      | ok rs =>
        rw [hmap] at hok
        cases hok
        refine ⟨rfl, mapExcept_length hmap, rfl, ?_⟩
        intro i text htext
        rcases mapExcept_get hmap htext with ⟨item, hit, hfa⟩
        obtain ⟨idx2, _, _, _, htxt, _⟩ := predictOne_ok hfa
        refine ⟨item, hit, htxt, ?_⟩
        intro dt2
        simp [predict, hsl, hb, hfa]

/-- The batch result of the demonstration bundle on the one-text batch. -/
def demoBatch : BatchResult :=
  { results := [demoItem "x"], total_texts := 1, processing_time := 0 }

/-- Witness for C9 at concrete inputs: the demonstration predictor's batch
over `["x"]` is accepted, and by the theorem its count is 1. -/
theorem predict_batch_per_text_witness : demoBatch.total_texts = 1 := by
  have h := predict_batch_per_text demoLoaded ["x"] 0 demoBatch
    (by simp [predict_batch, activeBundle, demoLoaded, mapExcept,
      predictOne_demo "x", demoBatch])
  exact h.1

end CBTF
